import Mathlib

/-!
# Verification of gtkv's persistence core

A shallow embedding, in Lean, of the persistence and rendering core of the
gtkv block-document editor, together with proofs that settle the spec's
claims against the code.

Embedded modules (Python source file → Lean namespace):
* `src/document_io.py` → `DocumentIO` (format dispatch for load/save);
* `src/py_runner.py` → `PyRunner` (the sandboxed render pipeline);
* `src/persistence_sqlite.py` → `Persistence` (schema management,
  migrations, save/load of block rows, cache materialization).

Effects are made explicit: filesystem state is an association list of
path → contents, subprocess outcomes and fallible I/O are supplied by a
"world" record, and the SHA-256 hex digest, base64 codec, and MIME helper
functions of the Python standard library are universally quantified
function parameters (`H`, `E`, …) — every claim proved here holds for
every choice of those functions, and none of the claims depends on the
internals of the hash or the codec, only on which inputs reach them.
-/

namespace GtkV

/-- Python's `s or d` on strings: the default replaces `None` and `""`. -/
def pyStrOr (o : Option String) (d : String) : String :=
  match o with
  | none => d
  | some s => if s = "" then d else s

/-- Python's `a or b or c` chain on three strings (empty string is falsy). -/
def pyStrOr3 (a b c : String) : String :=
  if a = "" then (if b = "" then c else b) else a

/-- Python's `str.strip()`: drop whitespace from both ends, written over
the character list so that it evaluates by kernel reduction. -/
def pyStrip (s : String) : String :=
  ⟨((s.data.dropWhile Char.isWhitespace).reverse.dropWhile Char.isWhitespace).reverse⟩

namespace PyRunner

/-- `RenderResult` from `src/py_runner.py`: the dataclass holding the
encoded payload, the deterministic render digest, and the error text. -/
structure RenderResult where
  rendered_data : Option String
  rendered_hash : Option String
  error : Option String
deriving DecidableEq, Repr

/-- The outcome of the one subprocess invocation and the subsequent output
reads that `render_python_image` performs: exit code, captured streams,
whether the output file exists, and the results of reading it as text
(svg) or bytes (png). Supplied by the environment, consumed by the
embedding. -/
structure ProcWorld where
  returncode : Int
  stdout : String
  stderr : String
  outputExists : Bool
  readText : Except String String
  readBytes : Except String (List Nat)

/-- Python's `str.lower()`, written as an explicit map over the
character list so that it evaluates by kernel reduction. -/
def strLower (s : String) : String :=
  ⟨s.data.map Char.toLower⟩

/-- The format-normalization prefix of `render_python_image`
(`src/py_runner.py` lines 26–28): `(render_format or "png").lower()`,
then anything outside `{png, svg}` is coerced to `png`. -/
def normFormat (render_format : Option String) : String :=
  let f := strLower (pyStrOr render_format "png")
  if f = "png" ∨ f = "svg" then f else "png"

/-- `_hash_render` from `src/py_runner.py`: one SHA-256 digest fed, in
order, the interpreter path, the normalized format, and the source text —
equivalently the hash of their concatenation in that order. `H` is the
hex-digest function. -/
def _hash_render (H : String → String) (source python_path render_format : String) : String :=
  H (python_path ++ render_format ++ source)

/-- `render_python_image` from `src/py_runner.py`. `H` is the SHA-256
hex digest, `E` the base64 encoder, `w` the subprocess/filesystem
outcome. Faithful to the source's branch order: unconfigured interpreter
first (before any digest is computed), then format normalization and
digest, then non-zero exit, missing output, and the read of the output
file. -/
def render_python_image (H : String → String) (E : List Nat → String)
    (w : ProcWorld) (source python_path : String)
    (render_format : Option String) : RenderResult :=
  if python_path = "" then
    ⟨none, none, some "Python path not configured"⟩
  else
    let fmt := normFormat render_format
    let render_hash := _hash_render H source python_path fmt
    if w.returncode ≠ 0 then
      ⟨none, some render_hash, some (pyStrOr3 (pyStrip w.stderr) (pyStrip w.stdout) "Render failed")⟩
    else if !w.outputExists then
      ⟨none, some render_hash, some "Renderer did not write output"⟩
    else if fmt = "svg" then
      match w.readText with
      | .error exc => ⟨none, some render_hash, some ("Failed to read output: " ++ exc)⟩
      | .ok rendered_text => ⟨some rendered_text, some render_hash, none⟩
    else
      match w.readBytes with
      | .error exc => ⟨none, some render_hash, some ("Failed to read output: " ++ exc)⟩
      | .ok rendered_bytes => ⟨some (E rendered_bytes), some render_hash, none⟩

/-- A concrete subprocess world used to settle the failure-path claims:
the process exits with code 1, writes nothing to its streams, and no
output file appears. -/
def failedProc : ProcWorld :=
  ⟨1, "", "", false, .error "", .error ""⟩

end PyRunner

namespace DocumentIO

/-- `TEXT_HEADER` from `src/document_io.py`. -/
def TEXT_HEADER : String := "# GTKV v2"

/-- What `_is_text_doc` can observe about the file at the path: either an
`OSError` on open/readline, or the first line of the file. -/
structure PathWorld where
  firstLine : Except Unit String

/-- `_is_text_doc` from `src/document_io.py`: with `check_header = False`
it returns `True` without touching the file; otherwise it reads the first
line (an `OSError` yields `False`) and compares its stripped form against
the fixed header. -/
def _is_text_doc (w : PathWorld) (check_header : Bool) : Bool :=
  if !check_header then true
  else
    match w.firstLine with
    | .error _ => false
    | .ok first => pyStrip first = TEXT_HEADER

/-- The two storage backends `load`/`save` dispatch between. -/
inductive Backend where
  | text
  | sqlite
deriving DecidableEq, Repr

/-- The dispatch made by `load` in `src/document_io.py`. -/
def loadBackend (w : PathWorld) : Backend :=
  if _is_text_doc w true then .text else .sqlite

/-- The dispatch made by `save` in `src/document_io.py`: it calls
`_is_text_doc(path, check_header=False)`. -/
def saveBackend (w : PathWorld) : Backend :=
  if _is_text_doc w false then .text else .sqlite

/-- A concrete path world for the format-dispatch claims: opening the
file succeeds and its first line is not the text-format header. -/
def nonHeaderWorld : PathWorld :=
  ⟨.ok "SQLite format 3"⟩

end DocumentIO

namespace Persistence

/-- Contents of one cache file: raw bytes (image payloads, decoded png
renders) or UTF-8 text (svg renders). -/
inductive FileData where
  | bin (bytes : List Nat)
  | txt (s : String)
deriving DecidableEq, Repr

/-- The cache filesystem: an association list from path to contents,
newest entry first. -/
def FsState : Type := List (String × FileData)

/-- Read the current contents of a path. -/
def fsLookup (fs : FsState) (p : String) : Option FileData :=
  match fs with
  | [] => none
  | (q, c) :: rest => if q = p then some c else fsLookup rest p

/-- `Path.exists` on the modelled filesystem. -/
def fsExists (fs : FsState) (p : String) : Bool :=
  (fsLookup fs p).isSome

/-- `write_bytes` / `write_text` on the modelled filesystem. -/
def fsWrite (fs : FsState) (p : String) (c : FileData) : FsState :=
  (p, c) :: fs

/-- Which of the filesystem operations performed by one materialize call
fail with `OSError`: creating the cache directory, or writing the target
file. -/
structure FsWorld where
  mkdirFails : Bool
  writeFails : Bool

/-- The world in which every filesystem operation succeeds. -/
def okWorld : FsWorld := ⟨false, false⟩

/-- An `OSError` escaping a materialize call (an uncaught Python
exception). -/
inductive FsError where
  | oserror
deriving DecidableEq, Repr

/-- Python truthiness of an optional string (`None` and `""` are falsy). -/
def pyTruthy (o : Option String) : Bool :=
  match o with
  | none => false
  | some s => s ≠ ""

/-- `Except.isOk` spelled out: `True` exactly when no exception escaped. -/
def exceptOk {ε α : Type} : Except ε α → Bool
  | .ok _ => true
  | .error _ => false

/-- `_cache_root_for_document` from `src/persistence_sqlite.py`: the
per-document cache directory `cache_root/gtkv/sqlite/<digest-of-path>`.
`H16` is the truncated SHA-256 hex digest, `cacheRoot` the value of
`XDG_CACHE_HOME` (or `~/.cache`). -/
def _cache_root_for_document (H16 : String → String) (cacheRoot docPath : String) : String :=
  cacheRoot ++ "/gtkv/sqlite/" ++ H16 docPath

/-- The target path `_materialize_image` writes:
`<cache-dir>/image-<id><extension>`, extension guessed from the MIME type
with fallback `.img`. `guessExt` is `mimetypes.guess_extension`. -/
def _image_target_path (guessExt : String → Option String) (H16 : String → String)
    (cacheRoot docPath : String) (image_id : Nat) (mime : String) : String :=
  _cache_root_for_document H16 cacheRoot docPath
    ++ "/image-" ++ toString image_id ++ (guessExt mime).getD ".img"

/-- The target path `_materialize_pyimage` writes:
`<cache-dir>/pyimage/pyimage-<digest><ext>`, where the digest hashes the
given source string and the extension is `.svg` exactly when the stored
format is `svg`. -/
def _pyimage_target_path (H16 : String → String) (cacheRoot docPath : String)
    (digest_source : String) (render_format : Option String) : String :=
  _cache_root_for_document H16 cacheRoot docPath
    ++ "/pyimage/pyimage-" ++ H16 digest_source
    ++ (if pyStrOr render_format "png" = "svg" then ".svg" else ".png")

/-- `_materialize_image` from `src/persistence_sqlite.py`. The source
wraps nothing in `try`: a failure of `cache_dir.mkdir` or of
`image_path.write_bytes` propagates (`.error`). An existing target file
is returned without being rewritten. -/
def _materialize_image (guessExt : String → Option String) (H16 : String → String)
    (cacheRoot : String) (w : FsWorld) (fs : FsState) (docPath : String)
    (image_id : Nat) (mime : String) (data : List Nat) :
    Except FsError (FsState × String) :=
  if w.mkdirFails then .error .oserror
  else
    let image_path := _image_target_path guessExt H16 cacheRoot docPath image_id mime
    if fsExists fs image_path then .ok (fs, image_path)
    else if w.writeFails then .error .oserror
    else .ok (fsWrite fs image_path (.bin data), image_path)

/-- `_materialize_pyimage` from `src/persistence_sqlite.py`. A falsy
`rendered_data` short-circuits to no path; `cache_dir.mkdir` is outside
the `try` block and propagates; the write (and for png the base64
decode) is inside `try (OSError, ValueError)` and yields `None` on
failure. `b64decode` is Python's decoder (`none` models `ValueError`). -/
def _materialize_pyimage (b64decode : String → Option (List Nat)) (H16 : String → String)
    (cacheRoot : String) (w : FsWorld) (fs : FsState) (docPath : String)
    (rendered_data render_format rendered_hash : Option String) :
    Except FsError (FsState × Option String) :=
  match rendered_data with
  | none => .ok (fs, none)
  | some rd =>
    if rd = "" then .ok (fs, none)
    else if w.mkdirFails then .error .oserror
    else
      let digest_source := pyStrOr rendered_hash rd
      let image_path := _pyimage_target_path H16 cacheRoot docPath digest_source render_format
      if fsExists fs image_path then .ok (fs, some image_path)
      else if pyStrOr render_format "png" = "svg" then
        if w.writeFails then .ok (fs, none)
        else .ok (fsWrite fs image_path (.txt rd), some image_path)
      else
        match b64decode rd with
        | none => .ok (fs, none)
        | some bs =>
          if w.writeFails then .ok (fs, none)
          else .ok (fsWrite fs image_path (.bin bs), some image_path)

/-- `SCHEMA_VERSION` from `src/persistence_sqlite.py` line 13. -/
def SCHEMA_VERSION : Nat := 3

/-- The `type` CHECK enum of the v2 `blocks` table
(`_migrate_schema`, first step). -/
def enumV2 : List String := ["text", "image", "three"]

/-- The `type` CHECK enum of the v3 (current) `blocks` table
(`_ensure_schema` and `_migrate_schema`, second step). -/
def enumV3 : List String := ["text", "image", "three", "pyimage"]

/-- One row of the `blocks` table. The `created_at`/`updated_at`
timestamp columns are omitted: no claim mentions them and no load/save
logic reads them. -/
structure Row where
  position : Nat
  type : String
  text : Option String
  image_id : Option Nat
  format : Option String
  rendered_data : Option String
  rendered_hash : Option String
  error : Option String
deriving DecidableEq, Repr

/-- One row of the `images` table. -/
structure ImageRow where
  id : Nat
  mime : String
  data : List Nat
  alt : String
deriving DecidableEq, Repr

/-- The relational store of one document file: the `meta` key/value
table, the `blocks` table together with the `type` CHECK enum its
current definition declares, and the `images` table. `hasTables` is
false for a virgin database file in which no table exists yet. -/
structure DbState where
  hasTables : Bool
  metaTable : List (String × String)
  blocks : List Row
  blocksEnum : List String
  images : List ImageRow
deriving DecidableEq, Repr

/-- A database error escaping a schema operation (an uncaught sqlite3
exception, e.g. a CHECK-constraint violation during a migration copy). -/
inductive DbError where
  | checkViolation
deriving DecidableEq, Repr

/-- `_upsert_meta` from `src/persistence_sqlite.py`:
`INSERT ... ON CONFLICT(key) DO UPDATE` — update in place if the key
exists, else append. -/
def _upsert_meta (meta : List (String × String)) (key value : String) :
    List (String × String) :=
  match meta with
  | [] => [(key, value)]
  | (k, v) :: rest =>
    if k = key then (k, value) :: rest else (k, v) :: _upsert_meta rest key value

/-- `SELECT value FROM meta WHERE key = ?` on the modelled meta table. -/
def lookupMeta (meta : List (String × String)) (key : String) : Option String :=
  match meta with
  | [] => none
  | (k, v) :: rest => if k = key then some v else lookupMeta rest key

/-- Python's `int(s)` for the nonnegative decimal strings the store
writes (`str(SCHEMA_VERSION)`); `none` models the `ValueError` of a
non-numeric value. -/
def pyIntNat (s : String) : Option Nat :=
  if s.data ≠ [] ∧ s.data.all Char.isDigit then
    some (s.data.foldl (fun n c => 10 * n + (c.toNat - 48)) 0)
  else none

/-- `_get_schema_version` from `src/persistence_sqlite.py`: a missing
row or an unparsable value reads as version 0. -/
def _get_schema_version (meta : List (String × String)) : Nat :=
  match lookupMeta meta "schema_version" with
  | none => 0
  | some v => (pyIntNat v).getD 0

/-- The column projection both migration steps perform: their
`INSERT INTO blocks ... SELECT ...` copies `id, position, type, text,
image_id, created_at, updated_at` and leaves the v3-only columns NULL. -/
def copyRow (r : Row) : Row :=
  { position := r.position, type := r.type, text := r.text, image_id := r.image_id,
    format := none, rendered_data := none, rendered_hash := none, error := none }

/-- One migration step's table rebuild: rename the live table aside,
create the new table with the given `type` enum, copy the projected rows
forward, drop the old table. Inserting a row whose type violates the new
CHECK constraint aborts with an sqlite error. -/
def recreateBlocks (s : DbState) (enum : List String) : Except DbError DbState :=
  if s.blocks.all (fun r => enum.contains r.type) then
    .ok { s with blocks := s.blocks.map copyRow, blocksEnum := enum }
  else .error .checkViolation

/-- `_migrate_schema` from `src/persistence_sqlite.py`: the v0→v2
rebuild (constrain `type` to `{text,image,three}`), then the v2→v3
rebuild (add the render columns, extend the enum with `pyimage`), then
record `str(SCHEMA_VERSION)` in `meta`. There is no further step. -/
def _migrate_schema (s : DbState) (current_version : Nat) : Except DbError DbState :=
  match (if current_version < 2 then recreateBlocks s enumV2 else .ok s) with
  | .error e => .error e
  | .ok s =>
    match (if current_version < 3 then recreateBlocks s enumV3 else .ok s) with
    | .error e => .error e
    | .ok s =>
      .ok { s with
            metaTable := _upsert_meta s.metaTable "schema_version" (toString SCHEMA_VERSION) }

/-- The `CREATE TABLE IF NOT EXISTS` prefix of `_ensure_schema`: a
virgin store gets empty tables with the current (v3) blocks enum; an
existing store is left untouched. -/
def createTables (s : DbState) : DbState :=
  if s.hasTables then s
  else { hasTables := true, metaTable := [], blocks := [], blocksEnum := enumV3, images := [] }

/-- `_ensure_schema` from `src/persistence_sqlite.py`: create missing
tables, read the recorded version, and migrate when it is behind
`SCHEMA_VERSION`. -/
def _ensure_schema (s : DbState) : Except DbError DbState :=
  let s := createTables s
  let current_version := _get_schema_version s.metaTable
  if current_version < SCHEMA_VERSION then _migrate_schema s current_version else .ok s

/-- A store frozen at version 0 (no recorded `schema_version`) holding
one block row of the legacy `image` type and its referenced image row. -/
def v0ImageStore : DbState :=
  ⟨true, [], [⟨0, "image", none, some 1, none, none, none, none⟩],
   enumV2, [⟨1, "image/png", [137], ""⟩]⟩

/-- Modelled from the spec: the block variants of `block_model.py`, which
is not under `src/`. The spec's data-model table declares five variants;
their fields come from that table and from the constructor calls in
`src/persistence_sqlite.py` (`TextBlock(text)`,
`ImageBlock(path, alt, data, mime)`, `ThreeBlock(source)`,
`PythonImageBlock(source, format, rendered_data, rendered_hash,
last_error, rendered_path)`), plus the Math (typeset) variant carrying
opaque math-markup source. The save dispatch in
`src/persistence_sqlite.py` handles only the first four: a Math block
matches no branch of its `isinstance` chain, so it inserts no row while
`position` still advances. -/
inductive Block where
  | text (text : String)
  | image (path : String) (alt : String) (data : Option (List Nat)) (mime : Option String)
  | three (source : String)
  | pyimage (source : String) (format : String) (rendered_data : Option String)
      (rendered_hash : Option String) (last_error : Option String)
      (rendered_path : Option String)
  | latex (source : String)
deriving DecidableEq, Repr

/-- Whether a block is the Math (typeset) variant, which the save
dispatch does not persist. -/
def isLatex : Block → Bool
  | .latex _ => true
  | _ => false

/-- What `_resolve_image_payload` and `save_document` can observe about
the live filesystem: `os.path.exists`, `Path.read_bytes` (`none` models
`OSError`), and `mimetypes.guess_type`. -/
structure SaveWorld where
  pathExists : String → Bool
  readBytes : String → Option (List Nat)
  guessMime : String → Option String

/-- The fallback branch of `_resolve_image_payload`: read the block's
live path when it is truthy and exists; an `OSError` yields nothing,
and a missing MIME guess falls back to `application/octet-stream`. -/
def resolveFromPath (w : SaveWorld) (path : String) :
    Option (List Nat) × Option String :=
  if path ≠ "" ∧ w.pathExists path then
    match w.readBytes path with
    | none => (none, none)
    | some image_bytes =>
      (some image_bytes, some (pyStrOr (w.guessMime path) "application/octet-stream"))
  else (none, none)

/-- `_resolve_image_payload` from `src/persistence_sqlite.py`: prefer
the in-memory bytes and MIME when both are truthy (`if block.data and
block.mime`), else fall back to the live path. -/
def _resolve_image_payload (w : SaveWorld) (path : String)
    (data : Option (List Nat)) (mime : Option String) :
    Option (List Nat) × Option String :=
  match data, mime with
  | some d, some m =>
    if d ≠ [] ∧ m ≠ "" then (some d, some m) else resolveFromPath w path
  | _, _ => resolveFromPath w path

/-- The insert loop of `save_document` (`src/persistence_sqlite.py`
lines 82–125): walk the block sequence with a `position` counter that
advances for every block, and an image rowid counter that advances per
inserted image row (sqlite's `lastrowid`). Returns the inserted `blocks`
rows and `images` rows in insertion order. An image block whose payload
does not resolve inserts nothing but still advances `position`. -/
def saveBlocks (w : SaveWorld) :
    List Block → Nat → Nat → List Row × List ImageRow
  | [], _, _ => ([], [])
  | b :: rest, position, nextImageId =>
    match b with
    | .text t =>
      (⟨position, "text", some t, none, none, none, none, none⟩
         :: (saveBlocks w rest (position + 1) nextImageId).1,
       (saveBlocks w rest (position + 1) nextImageId).2)
    | .image path alt data mime =>
      match _resolve_image_payload w path data mime with
      | (some image_bytes, some m) =>
        (⟨position, "image", none, some nextImageId, none, none, none, none⟩
           :: (saveBlocks w rest (position + 1) (nextImageId + 1)).1,
         ⟨nextImageId, m, image_bytes, alt⟩
           :: (saveBlocks w rest (position + 1) (nextImageId + 1)).2)
      | _ => saveBlocks w rest (position + 1) nextImageId
    | .three src =>
      (⟨position, "three", some src, none, none, none, none, none⟩
         :: (saveBlocks w rest (position + 1) nextImageId).1,
       (saveBlocks w rest (position + 1) nextImageId).2)
    | .pyimage src fmt rendered_data rendered_hash last_error _ =>
      (⟨position, "pyimage", some src, none, some fmt, rendered_data, rendered_hash,
         last_error⟩ :: (saveBlocks w rest (position + 1) nextImageId).1,
       (saveBlocks w rest (position + 1) nextImageId).2)
    | .latex _ =>
      saveBlocks w rest (position + 1) nextImageId

/-- `save_document` from `src/persistence_sqlite.py`: ensure the schema,
then inside one transaction delete every `blocks` and `images` row,
re-insert from the in-memory sequence with `position` as the sequential
index, and record the schema version. `nextImageId` is the image table's
next `AUTOINCREMENT` rowid (sqlite keeps the sequence across the
delete). -/
def save_document (w : SaveWorld) (doc : List Block) (s : DbState)
    (nextImageId : Nat) : Except DbError DbState :=
  match _ensure_schema s with
  | .error e => .error e
  | .ok s1 =>
    .ok { s1 with
          blocks := (saveBlocks w doc 0 nextImageId).1
          images := (saveBlocks w doc 0 nextImageId).2
          metaTable := _upsert_meta s1.metaTable "schema_version" (toString SCHEMA_VERSION) }

/-- What `load_document` can observe from the cache-materialization
calls it makes: their returned paths, which end up only in the derived
path fields of the loaded blocks. -/
structure LoadWorld where
  matImage : Nat → String → List Nat → String
  matPy : Option String → Option String → Option String → Option String

/-- `SELECT ... FROM images WHERE id = ?` on the modelled images table. -/
def findImage (images : List ImageRow) (image_id : Nat) : Option ImageRow :=
  match images with
  | [] => none
  | ir :: rest => if ir.id = image_id then some ir else findImage rest image_id

/-- The per-row dispatch of the `load_document` loop
(`src/persistence_sqlite.py` lines 26–66): `none` is a skipped row (a
dangling or NULL image reference, or an unknown type). `alt or ""` is
the identity on the NOT NULL `alt` column and is written as such. -/
def loadRow (lw : LoadWorld) (images : List ImageRow) (row : Row) : Option Block :=
  if row.type = "text" then some (.text (pyStrOr row.text ""))
  else if row.type = "image" then
    match row.image_id with
    | none => none
    | some image_id =>
      match findImage images image_id with
      | none => none
      | some ir =>
        some (.image (lw.matImage ir.id ir.mime ir.data) ir.alt (some ir.data) (some ir.mime))
  else if row.type = "three" then some (.three (pyStrOr row.text ""))
  else if row.type = "pyimage" then
    some (.pyimage (pyStrOr row.text "") (pyStrOr row.format "png") row.rendered_data
      row.rendered_hash row.error (lw.matPy row.rendered_data row.format row.rendered_hash))
  else none

/-- Insert a row into a position-sorted list, keeping earlier rows first
among equal positions. -/
def insertRow (r : Row) : List Row → List Row
  | [] => [r]
  | x :: xs => if r.position ≤ x.position then r :: x :: xs else x :: insertRow r xs

/-- `ORDER BY position`: a stable sort of the stored rows by position. -/
def sortRows (rows : List Row) : List Row :=
  rows.foldr insertRow []

/-- `load_document` from `src/persistence_sqlite.py`: ensure the schema,
read the `blocks` rows ordered by `position`, and dispatch each row to
its block constructor, skipping rows that do not resolve. -/
def load_document (lw : LoadWorld) (s : DbState) : Except DbError (List Block) :=
  match _ensure_schema s with
  | .error e => .error e
  | .ok s1 => .ok ((sortRows s1.blocks).filterMap (loadRow lw s1.images))

/-- The content of a block in the sense of the round-trip claim: order,
variant type, text content, image bytes/MIME/alt, render
source/payload/digest/error — everything except the derived,
cache-dependent fields (the image block's materialized path, the
rendered block's materialized path) and the render format tag, which
the claim does not list as content. -/
inductive BlockContent where
  | text (text : String)
  | image (alt : String) (data : Option (List Nat)) (mime : Option String)
  | three (source : String)
  | pyimage (source : String) (rendered_data : Option String)
      (rendered_hash : Option String) (last_error : Option String)
  | latex (source : String)
deriving DecidableEq, Repr

/-- Project a block to its claim-relevant content. -/
def contentView : Block → BlockContent
  | .text t => .text t
  | .image _ alt data mime => .image alt data mime
  | .three s => .three s
  | .pyimage s _ rendered_data rendered_hash last_error _ =>
    .pyimage s rendered_data rendered_hash last_error
  | .latex s => .latex s

/-- An image block carries resolvable inline bytes and MIME (both
truthy, so `_resolve_image_payload` takes its first branch); every other
variant trivially qualifies. -/
def inlineResolvable : Block → Bool
  | .image _ _ data mime =>
    match data, mime with
    | some d, some m => decide (d ≠ [] ∧ m ≠ "")
    | _, _ => false
  | _ => true

/-- A concrete save-time filesystem for the witnesses: no path exists,
nothing is readable, no MIME type is guessed. -/
def sampleSaveWorld : SaveWorld :=
  ⟨fun _ => false, fun _ => none, fun _ => none⟩

/-- A concrete load-time materializer for the witnesses. -/
def sampleLoadWorld : LoadWorld :=
  ⟨fun _ _ _ => "cached", fun _ _ _ => none⟩

/-- A document covering every block variant — the four persisted ones
and a Math (typeset) block — its image block carrying resolvable inline
bytes and MIME. -/
def sampleDoc : List Block :=
  [.text "hello",
   .image "/a.png" "alt" (some [1, 2]) (some "image/png"),
   .three "scene",
   .pyimage "code" "png" (some "AA") (some "hash") none none,
   .latex "E = mc^2"]

end Persistence

end GtkV

namespace GtkV

open PyRunner DocumentIO

/-- C10: the render format is lowercased and any value outside
`{png, svg}` — including `None` and `""` — is coerced to `png` before the
digest is computed, so `render` invoked with `"PNG"`, `"jpeg"`, or `""`
returns the same digest as `render` invoked with `"png"`, for every
source text and interpreter path (and every hash, encoder, and subprocess
outcome). -/
theorem render_format_coerced_before_digest
    (H : String → String) (E : List Nat → String) (w : ProcWorld)
    (source python_path : String) :
    (render_python_image H E w source python_path (some "PNG")).rendered_hash
      = (render_python_image H E w source python_path (some "png")).rendered_hash
    ∧ (render_python_image H E w source python_path (some "jpeg")).rendered_hash
      = (render_python_image H E w source python_path (some "png")).rendered_hash
    ∧ (render_python_image H E w source python_path (some "")).rendered_hash
      = (render_python_image H E w source python_path (some "png")).rendered_hash
    ∧ (render_python_image H E w source python_path none).rendered_hash
      = (render_python_image H E w source python_path (some "png")).rendered_hash := by
  have hPNG : normFormat (some "PNG") = "png" := by decide
  have hjpeg : normFormat (some "jpeg") = "png" := by decide
  have hempty : normFormat (some "") = "png" := by decide
  have hnone : normFormat none = "png" := by decide
  have hpng : normFormat (some "png") = "png" := by decide
  refine ⟨?_, ?_, ?_, ?_⟩ <;>
    · unfold render_python_image
      rw [hpng]
      first
      | rw [hPNG]
      | rw [hjpeg]
      | rw [hempty]
      | rw [hnone]

/-- C4 counterexample: the digest is NOT present on every failure
outcome. When the interpreter path is not configured,
`render_python_image` returns before any digest is computed, and the
result's `rendered_hash` is `None` — refuting the claim at the concrete
input `source = "print(1)"`, `python_path = ""`. -/
theorem render_unconfigured_has_no_digest :
    (render_python_image (fun s => s) (fun _ => "") failedProc "print(1)" "" (some "png")).rendered_hash
        = none
    ∧ (render_python_image (fun s => s) (fun _ => "") failedProc "print(1)" "" (some "png")).error
        = some "Python path not configured" := by
  constructor <;> rfl

/-- C4 (amended): whenever the interpreter path is configured, the digest
is present in the `RenderResult` on every outcome — every subprocess
world `w`, success or failure — and equals the hash of the ordered
concatenation of interpreter identity, normalized format, and source
text. Only the interpreter-not-configured outcome carries no digest. -/
theorem render_digest_unconditional_when_configured
    (H : String → String) (E : List Nat → String) (w : ProcWorld)
    (source python_path : String) (render_format : Option String)
    (hp : python_path ≠ "") :
    (render_python_image H E w source python_path render_format).rendered_hash
      = some (H (python_path ++ normFormat render_format ++ source)) := by
  unfold render_python_image _hash_render
  rw [if_neg hp]
  dsimp only
  split
  · rfl
  · split
    · rfl
    · split
      · cases w.readText <;> rfl
      · cases w.readBytes <;> rfl

/-- Witness for `render_digest_unconditional_when_configured` at the
interpreter path `/usr/bin/python3` and the identity hash. -/
theorem render_digest_unconditional_when_configured_witness :
    ("/usr/bin/python3" : String) ≠ ""
    ∧ (render_python_image (fun s => s) (fun _ => "") failedProc "x = 1" "/usr/bin/python3"
        (some "png")).rendered_hash = some "/usr/bin/python3pngx = 1" := by
  refine ⟨by decide, ?_⟩
  rw [render_digest_unconditional_when_configured (fun s => s) (fun _ => "") failedProc
    "x = 1" "/usr/bin/python3" (some "png") (by decide)]
  rfl

/-- The Python falsy-or chain written with explicit emptiness tests. -/
theorem pyStrOr3_eq (a b c : String) :
    pyStrOr3 a b c = if a ≠ "" then a else if b ≠ "" then b else c := by
  unfold pyStrOr3
  split_ifs <;> simp_all

/-- C8: a subprocess exiting non-zero yields an absent payload, the
deterministic digest, and an error equal to the stripped stderr, falling
back to the stripped stdout, falling back to `"Render failed"` when both
are empty. -/
theorem render_nonzero_exit_failure
    (H : String → String) (E : List Nat → String) (w : ProcWorld)
    (source python_path : String) (render_format : Option String)
    (hp : python_path ≠ "") (hrc : w.returncode ≠ 0) :
    render_python_image H E w source python_path render_format
      = ⟨none,
         some (H (python_path ++ normFormat render_format ++ source)),
         some (if pyStrip w.stderr ≠ "" then pyStrip w.stderr
               else if pyStrip w.stdout ≠ "" then pyStrip w.stdout
               else "Render failed")⟩ := by
  unfold render_python_image _hash_render
  rw [if_neg hp]
  dsimp only
  rw [if_pos hrc, pyStrOr3_eq]

/-- Witness for `render_nonzero_exit_failure`: exit code 1 with stderr
`"boom"` yields `RenderResult(payload=None, digest=<deterministic>,
error="boom")`. -/
theorem render_nonzero_exit_failure_witness :
    (("/usr/bin/python3" : String) ≠ "" ∧ (ProcWorld.returncode ⟨1, "out", "boom", true, .error "", .error ""⟩ ≠ 0))
    ∧ render_python_image (fun s => s) (fun _ => "") ⟨1, "out", "boom", true, .error "", .error ""⟩
        "x = 1" "/usr/bin/python3" (some "png")
      = ⟨none, some "/usr/bin/python3pngx = 1", some "boom"⟩ := by
  refine ⟨⟨by decide, by decide⟩, ?_⟩
  rw [render_nonzero_exit_failure (fun s => s) (fun _ => "")
    ⟨1, "out", "boom", true, .error "", .error ""⟩ "x = 1" "/usr/bin/python3" (some "png")
    (by decide) (by decide)]
  rfl

/-- C1 counterexample: `save` does not select the relational store for a
path that is not a text document. At a file whose first line is
`"SQLite format 3"` (so `_is_text_doc` with header checking reports
`False`, and `load` would route it to the relational store), `save`
still dispatches to the text backend, because it calls `_is_text_doc`
with `check_header=False`, which returns `True` unconditionally. -/
theorem save_routes_non_text_doc_to_text :
    saveBackend nonHeaderWorld = Backend.text
    ∧ _is_text_doc nonHeaderWorld true = false
    ∧ loadBackend nonHeaderWorld = Backend.sqlite := by
  refine ⟨rfl, by decide, by decide⟩

/-- C1 (amended): `save`'s format selection ignores the path entirely —
`_is_text_doc(path, check_header=False)` returns `True` for every path,
so every save is routed to the text backend and the relational store is
never chosen by `save`. -/
theorem save_always_text (w : PathWorld) :
    saveBackend w = Backend.text := rfl

end GtkV

namespace GtkV.Persistence

/-- C5 counterexample: `materialize` does raise on a filesystem error.
At a concrete input — empty cache, an image payload of three bytes, and
a world in which the directory is created but `write_bytes` fails —
`_materialize_image` propagates the `OSError` instead of returning an
absent path, because nothing in its body catches exceptions. -/
theorem materialize_image_raises_on_write_error :
    _materialize_image (fun _ => some ".png") (fun s => s) "/home/u/.cache"
        ⟨false, true⟩ [] "/notes/a.docv" 1 "image/png" [1, 2, 3]
      = .error .oserror := by
  rfl

/-- C5 (amended): only the pyimage write/decode step is protected.
`_materialize_pyimage` raises exactly when the payload is truthy and
creating the cache directory fails, while `_materialize_image` raises
whenever directory creation fails, or the target file is absent and
writing it fails (the first two conjuncts: an exact characterization of
when each call returns without an exception). The third conjunct states
the graceful degradation: when the payload is truthy, the directory is
created, and the target file does not exist, a failure of the protected
write — or, for a non-svg format, of the base64 decode — makes
`_materialize_pyimage` return an ABSENT path (and an unchanged
filesystem) instead of raising. -/
theorem materialize_error_characterization
    (b64decode : String → Option (List Nat)) (guessExt : String → Option String)
    (H16 : String → String) (cacheRoot : String) (w : FsWorld) (fs : FsState)
    (docPath : String) (rendered_data render_format rendered_hash : Option String)
    (image_id : Nat) (mime : String) (data : List Nat) :
    exceptOk (_materialize_pyimage b64decode H16 cacheRoot w fs docPath
        rendered_data render_format rendered_hash)
      = (!w.mkdirFails || !pyTruthy rendered_data)
    ∧ exceptOk (_materialize_image guessExt H16 cacheRoot w fs docPath image_id mime data)
      = (!w.mkdirFails
          && (fsExists fs (_image_target_path guessExt H16 cacheRoot docPath image_id mime)
              || !w.writeFails))
    ∧ (∀ rd, rendered_data = some rd → rd ≠ "" → w.mkdirFails = false →
        fsExists fs (_pyimage_target_path H16 cacheRoot docPath (pyStrOr rendered_hash rd)
            render_format) = false →
        (w.writeFails = true
          ∨ (¬ pyStrOr render_format "png" = "svg" ∧ b64decode rd = none)) →
        _materialize_pyimage b64decode H16 cacheRoot w fs docPath rendered_data
            render_format rendered_hash = .ok (fs, none)) := by
  refine ⟨?_, ?_, ?_⟩
  · match rendered_data with
    | none => simp [_materialize_pyimage, pyTruthy, exceptOk]
    | some rd =>
      by_cases hrd : rd = ""
      · subst hrd
        cases hw : w.mkdirFails <;> simp [_materialize_pyimage, pyTruthy, exceptOk, hw]
      · cases hw : w.mkdirFails
        · simp only [Bool.not_false, Bool.true_or]
          unfold _materialize_pyimage
          dsimp only
          rw [if_neg hrd, hw]
          simp only [Bool.false_eq_true, if_false, ite_false]
          split
          · rfl
          · split
            · split <;> rfl
            · split
              · rfl
              · split <;> rfl
        · simp [_materialize_pyimage, pyTruthy, exceptOk, hrd, hw]
  · unfold _materialize_image
    by_cases hm : w.mkdirFails
    · simp [hm, exceptOk]
    · simp only [hm, if_false, Bool.not_false, Bool.true_and, ite_false]
      by_cases he : fsExists fs (_image_target_path guessExt H16 cacheRoot docPath image_id mime)
      · simp [he, exceptOk]
      · by_cases hw : w.writeFails <;> simp [he, hw, exceptOk]
  · intro rd hrd0 hrd hm hex hfail
    subst hrd0
    unfold _materialize_pyimage
    dsimp only
    rw [if_neg hrd, hm]
    simp only [Bool.false_eq_true, if_false, ite_false]
    rw [if_neg (by simp [hex])]
    by_cases hsvg : pyStrOr render_format "png" = "svg"
    · rw [if_pos hsvg]
      cases hfail with
      | inl hw =>
        rw [hw]
        simp
      | inr hn => exact absurd hsvg hn.1
    · rw [if_neg hsvg]
      cases hfail with
      | inl hw =>
        cases hb : b64decode rd with
        | none => rfl
        | some bs =>
          rw [hw]
          simp
      | inr hn =>
        rw [hn.2]

/-- Witness for `materialize_error_characterization` at its third
conjunct: a truthy payload, a created directory, an absent target file,
and a failing write make `_materialize_pyimage` return no path and
leave the (empty) filesystem untouched. -/
theorem materialize_error_characterization_witness :
    _materialize_pyimage (fun _ => some [7]) (fun s => s) "/c" ⟨false, true⟩ [] "/d"
        (some "AA") (some "png") (some "h") = .ok ([], none) := by
  have h := materialize_error_characterization (fun _ => some [7]) (fun _ => some ".png")
    (fun s => s) "/c" ⟨false, true⟩ [] "/d" (some "AA") (some "png") (some "h")
    1 "image/png" [1]
  exact h.2.2 "AA" rfl (by decide) rfl (by rfl) (Or.inl rfl)

/-- The result path of a successful `_materialize_image` call exists in
the resulting filesystem, and is the deterministic target path. -/
theorem materialize_image_ok_exists (guessExt : String → Option String)
    (H16 : String → String) (cacheRoot : String) (w : FsWorld) (fs fs' : FsState)
    (docPath : String) (image_id : Nat) (mime : String) (data : List Nat) (p : String)
    (h : _materialize_image guessExt H16 cacheRoot w fs docPath image_id mime data
          = .ok (fs', p)) :
    fsExists fs' p = true
    ∧ p = _image_target_path guessExt H16 cacheRoot docPath image_id mime := by
  unfold _materialize_image at h
  by_cases hm : w.mkdirFails
  · simp [hm] at h
  · simp only [hm, ite_false, if_false] at h
    by_cases he : fsExists fs (_image_target_path guessExt H16 cacheRoot docPath image_id mime)
    · simp only [he, ite_true, if_true] at h
      obtain ⟨h1, h2⟩ := by simpa using h
      subst h1; subst h2
      exact ⟨he, rfl⟩
    · by_cases hw : w.writeFails
      · simp [he, hw] at h
      · simp only [he, hw, ite_false, if_false, Bool.false_eq_true] at h
        obtain ⟨h1, h2⟩ := by simpa using h
        subst h1; subst h2
        exact ⟨by simp [fsExists, fsWrite, fsLookup], rfl⟩

/-- The result path of a `_materialize_pyimage` call that produced a
path exists in the resulting filesystem, and is the deterministic target
path for the stored hash (or payload) and format. -/
theorem materialize_pyimage_ok_exists (b64decode : String → Option (List Nat))
    (H16 : String → String) (cacheRoot : String) (w : FsWorld) (fs fs' : FsState)
    (docPath rd : String) (render_format rendered_hash : Option String) (p : String)
    (h : _materialize_pyimage b64decode H16 cacheRoot w fs docPath (some rd)
          render_format rendered_hash = .ok (fs', some p)) :
    fsExists fs' p = true
    ∧ p = _pyimage_target_path H16 cacheRoot docPath (pyStrOr rendered_hash rd) render_format := by
  unfold _materialize_pyimage at h
  dsimp only at h
  by_cases hrd : rd = ""
  · simp [hrd] at h
  · rw [if_neg hrd] at h
    by_cases hm : w.mkdirFails
    · simp [hm] at h
    · simp only [hm, Bool.false_eq_true, if_false, ite_false] at h
      by_cases he :
          fsExists fs (_pyimage_target_path H16 cacheRoot docPath (pyStrOr rendered_hash rd) render_format)
      · simp only [he, ite_true, if_true] at h
        obtain ⟨h1, h2⟩ := by simpa using h
        subst h1; subst h2
        exact ⟨he, rfl⟩
      · simp only [he, Bool.false_eq_true, if_false, ite_false] at h
        by_cases hsvg : pyStrOr render_format "png" = "svg"
        · simp only [hsvg, ite_true, if_true] at h
          by_cases hw : w.writeFails
          · simp [hw] at h
          · simp only [hw, Bool.false_eq_true, if_false, ite_false] at h
            obtain ⟨h1, h2⟩ := by simpa using h
            subst h1; subst h2
            exact ⟨by simp [fsExists, fsWrite, fsLookup], rfl⟩
        · simp only [hsvg, ite_false, if_false] at h
          cases hb : b64decode rd with
          | none => simp [hb] at h
          | some bs =>
            simp only [hb] at h
            by_cases hw : w.writeFails
            · simp [hw] at h
            · simp only [hw, Bool.false_eq_true, if_false, ite_false] at h
              obtain ⟨h1, h2⟩ := by simpa using h
              subst h1; subst h2
              exact ⟨by simp [fsExists, fsWrite, fsLookup], rfl⟩

/-- C6: materialization is write-once per digest. A second
`_materialize_image` call for the same image id and MIME type with a
different payload, and a second `_materialize_pyimage` call for the same
(non-empty) stored hash and format with a different payload, each return
the filesystem of the first call UNCHANGED and the first call's path:
the existing target file is never rewritten, so the bytes written by the
first call are intact after the second. -/
theorem materialize_write_once (guessExt : String → Option String)
    (b64decode : String → Option (List Nat)) (H16 : String → String)
    (cacheRoot : String) (fs0 fs1 fs1' : FsState) (docPath : String)
    (image_id : Nat) (mime : String) (d1 d2 : List Nat) (p : String)
    (rd1 rd2 rendered_hash : String) (render_format : Option String) (p' : String)
    (hrh : rendered_hash ≠ "") (hrd2 : rd2 ≠ "")
    (h1 : _materialize_image guessExt H16 cacheRoot okWorld fs0 docPath image_id mime d1
            = .ok (fs1, p))
    (h2 : _materialize_pyimage b64decode H16 cacheRoot okWorld fs0 docPath (some rd1)
            render_format (some rendered_hash) = .ok (fs1', some p')) :
    _materialize_image guessExt H16 cacheRoot okWorld fs1 docPath image_id mime d2
      = .ok (fs1, p)
    ∧ _materialize_pyimage b64decode H16 cacheRoot okWorld fs1' docPath (some rd2)
        render_format (some rendered_hash) = .ok (fs1', some p') := by
  have hps1 : pyStrOr (some rendered_hash) rd1 = rendered_hash := by simp [pyStrOr, hrh]
  have hps2 : pyStrOr (some rendered_hash) rd2 = rendered_hash := by simp [pyStrOr, hrh]
  constructor
  · obtain ⟨hex, hp⟩ :=
      materialize_image_ok_exists guessExt H16 cacheRoot okWorld fs0 fs1 docPath
        image_id mime d1 p h1
    subst hp
    unfold _materialize_image
    simp [okWorld, hex]
  · obtain ⟨hex, hp⟩ :=
      materialize_pyimage_ok_exists b64decode H16 cacheRoot okWorld fs0 fs1' docPath
        rd1 render_format (some rendered_hash) p' h2
    rw [hps1] at hp
    subst hp
    unfold _materialize_pyimage
    dsimp only
    rw [if_neg hrd2, hps2]
    simp [okWorld, hex]

/-- Witness for `materialize_write_once`: starting from an empty cache,
a first image materialization writes `[1]` and a first pyimage
materialization (hash `"h"`, payload `"AA"` decoding to `[7]`) writes its
file; the second calls, with payloads `[2]` and `"BB"`, leave both
filesystems exactly as the first calls left them, and the image file
still holds `[1]`. -/
theorem materialize_write_once_witness :
    (("h" : String) ≠ "" ∧ ("BB" : String) ≠ ""
      ∧ _materialize_image (fun _ => some ".png") (fun s => s) "/c" okWorld [] "/d"
          1 "image/png" [1]
        = .ok ([("/c/gtkv/sqlite//d/image-1.png", FileData.bin [1])], "/c/gtkv/sqlite//d/image-1.png")
      ∧ _materialize_pyimage (fun _ => some [7]) (fun s => s) "/c" okWorld [] "/d"
          (some "AA") (some "png") (some "h")
        = .ok ([("/c/gtkv/sqlite//d/pyimage/pyimage-h.png", FileData.bin [7])],
               some "/c/gtkv/sqlite//d/pyimage/pyimage-h.png"))
    ∧ (_materialize_image (fun _ => some ".png") (fun s => s) "/c" okWorld
          [("/c/gtkv/sqlite//d/image-1.png", FileData.bin [1])] "/d" 1 "image/png" [2]
        = .ok ([("/c/gtkv/sqlite//d/image-1.png", FileData.bin [1])], "/c/gtkv/sqlite//d/image-1.png")
      ∧ _materialize_pyimage (fun _ => some [7]) (fun s => s) "/c" okWorld
          [("/c/gtkv/sqlite//d/pyimage/pyimage-h.png", FileData.bin [7])] "/d"
          (some "BB") (some "png") (some "h")
        = .ok ([("/c/gtkv/sqlite//d/pyimage/pyimage-h.png", FileData.bin [7])],
               some "/c/gtkv/sqlite//d/pyimage/pyimage-h.png"))
    ∧ fsLookup [("/c/gtkv/sqlite//d/image-1.png", FileData.bin [1])] "/c/gtkv/sqlite//d/image-1.png"
        = some (FileData.bin [1]) := by
  refine ⟨⟨by decide, by decide, by rfl, by rfl⟩, ?_, by rfl⟩
  exact materialize_write_once (fun _ => some ".png") (fun _ => some [7]) (fun s => s)
    "/c" [] [("/c/gtkv/sqlite//d/image-1.png", FileData.bin [1])]
    [("/c/gtkv/sqlite//d/pyimage/pyimage-h.png", FileData.bin [7])] "/d" 1 "image/png"
    [1] [2] "/c/gtkv/sqlite//d/image-1.png" "AA" "BB" "h" (some "png")
    "/c/gtkv/sqlite//d/pyimage/pyimage-h.png" (by decide) (by decide) (by rfl) (by rfl)

/-- Upserting a key makes it readable with the written value. -/
theorem lookupMeta_upsert (meta : List (String × String)) (key value : String) :
    lookupMeta (_upsert_meta meta key value) key = some value := by
  induction meta with
  | nil => simp [_upsert_meta, lookupMeta]
  | cons kv rest ih =>
    obtain ⟨k, v⟩ := kv
    by_cases hk : k = key
    · simp [_upsert_meta, lookupMeta, hk]
    · simp [_upsert_meta, lookupMeta, hk, ih]

/-- The migration copy projection is idempotent. -/
theorem copyRow_idem (r : Row) : copyRow (copyRow r) = copyRow r := rfl

/-- `createTables` always leaves the tables present. -/
theorem createTables_hasTables (s : DbState) : (createTables s).hasTables = true := by
  unfold createTables
  split
  · rename_i h; exact h
  · rfl

/-- `createTables` is the identity on a store whose tables exist. -/
theorem createTables_of_hasTables (s : DbState) (h : s.hasTables = true) :
    createTables s = s := by
  unfold createTables
  rw [if_pos h]

/-- What a successful migration from any version behind 3 produces: the
v3 blocks enum, every row copied forward under the column projection,
and the recorded version `"3"`; nothing else of the store changes. -/
theorem recreateBlocks_ok (s : DbState) (enum : List String) (t : DbState)
    (h : recreateBlocks s enum = .ok t) :
    t = { s with blocks := s.blocks.map copyRow, blocksEnum := enum } := by
  unfold recreateBlocks at h
  split at h
  · injection h with h
    exact h.symm
  · exact absurd h (by simp)

theorem migrate_lt3 (s t : DbState) (v : Nat) (hv : v < 3)
    (h : _migrate_schema s v = .ok t) :
    t = { s with
          blocks := s.blocks.map copyRow
          blocksEnum := enumV3
          metaTable := _upsert_meta s.metaTable "schema_version" "3" } := by
  have h3 : toString SCHEMA_VERSION = "3" := rfl
  unfold _migrate_schema at h
  rw [h3] at h
  by_cases h2 : v < 2
  · rw [if_pos h2] at h
    cases hr1 : recreateBlocks s enumV2 with
    | error e =>
      rw [hr1] at h
      exact absurd h (by simp)
    | ok s1 =>
      rw [hr1] at h
      dsimp only at h
      rw [if_pos hv] at h
      cases hr2 : recreateBlocks s1 enumV3 with
      | error e =>
        rw [hr2] at h
        exact absurd h (by simp)
      | ok s2 =>
        rw [hr2] at h
        dsimp only at h
        have hs1 := recreateBlocks_ok s enumV2 s1 hr1
        have hs2 := recreateBlocks_ok s1 enumV3 s2 hr2
        subst hs1
        subst hs2
        injection h with h
        rw [← h]
        simp [DbState.mk.injEq, List.map_map, Function.comp, copyRow_idem]
  · rw [if_neg h2] at h
    dsimp only at h
    rw [if_pos hv] at h
    cases hr2 : recreateBlocks s enumV3 with
    | error e =>
      rw [hr2] at h
      exact absurd h (by simp)
    | ok s2 =>
      rw [hr2] at h
      dsimp only at h
      have hs2 := recreateBlocks_ok s enumV3 s2 hr2
      subst hs2
      injection h with h
      rw [← h]

/-- C7: `ensure` is idempotent — re-running `_ensure_schema` on the
store a successful run produced is a no-op: it returns the store
unchanged (same recorded version, no row of any table inserted, deleted,
or modified). -/
theorem ensure_schema_idempotent (s s' : DbState)
    (h : _ensure_schema s = .ok s') : _ensure_schema s' = .ok s' := by
  unfold _ensure_schema at h
  dsimp only at h
  by_cases hv : _get_schema_version (createTables s).metaTable < SCHEMA_VERSION
  · rw [if_pos hv] at h
    have hs' := migrate_lt3 (createTables s) s' _ (by simpa [SCHEMA_VERSION] using hv) h
    subst hs'
    have hver : _get_schema_version
        (_upsert_meta (createTables s).metaTable "schema_version" "3") = 3 := by
      unfold _get_schema_version
      rw [lookupMeta_upsert]
      rfl
    unfold _ensure_schema
    dsimp only
    rw [createTables_of_hasTables _ (by exact createTables_hasTables s)]
    dsimp only
    rw [hver]
    rw [if_neg (by simp [SCHEMA_VERSION])]
  · rw [if_neg hv] at h
    obtain rfl : createTables s = s' := by simpa using h
    unfold _ensure_schema
    dsimp only
    rw [createTables_of_hasTables _ (by exact createTables_hasTables s)]
    rw [if_neg hv]

/-- Witness for `ensure_schema_idempotent`: a virgin store is brought to
version 3, and a second `ensure` returns it unchanged. -/
theorem ensure_schema_idempotent_witness :
    _ensure_schema ⟨false, [], [], [], []⟩
      = .ok ⟨true, [("schema_version", "3")], [], enumV3, []⟩
    ∧ _ensure_schema ⟨true, [("schema_version", "3")], [], enumV3, []⟩
      = .ok ⟨true, [("schema_version", "3")], [], enumV3, []⟩ := by
  refine ⟨by rfl, ?_⟩
  exact ensure_schema_idempotent ⟨false, [], [], [], []⟩
    ⟨true, [("schema_version", "3")], [], enumV3, []⟩ (by rfl)

/-- C2 counterexample: the migration chain ends at version 3, not 4 —
there is no v3→v4 step, the post-`ensure` enum is
`{text, image, three, pyimage}` (not `{text, three, pyimage, latex}`),
and a legacy row of type `image` survives migration instead of being
dropped: running `ensure` on a version-0 store holding one `image` block
row keeps that row, keeps `image` in the enum, and records version 3. -/
theorem migration_retains_image_variant :
    SCHEMA_VERSION = 3
    ∧ _ensure_schema v0ImageStore
        = .ok ⟨true, [("schema_version", "3")],
               [⟨0, "image", none, some 1, none, none, none, none⟩],
               ["text", "image", "three", "pyimage"],
               [⟨1, "image/png", [137], ""⟩]⟩ := by
  exact ⟨rfl, by rfl⟩

/-- C2 (amended): the schema migration chain applied by `ensure` runs
v0→v2 and v2→v3 only — `SCHEMA_VERSION` is 3 and there is no v3→v4
step. After `ensure` completes on a store that was behind, the
`blocks.type` enum is exactly `{text, image, three, pyimage}`, every
row is copied forward under the column projection (none is dropped by
type), and in particular every row of type `image` remains. -/
theorem ensure_migrates_to_v3 (s t : DbState)
    (hv : _get_schema_version (createTables s).metaTable < 3)
    (h : _ensure_schema s = .ok t) :
    SCHEMA_VERSION = 3
    ∧ t.blocksEnum = ["text", "image", "three", "pyimage"]
    ∧ t.blocks = (createTables s).blocks.map copyRow
    ∧ lookupMeta t.metaTable "schema_version" = some "3"
    ∧ ∀ r ∈ (createTables s).blocks, r.type = "image" → copyRow r ∈ t.blocks := by
  unfold _ensure_schema at h
  dsimp only at h
  rw [if_pos (by simpa [SCHEMA_VERSION] using hv)] at h
  have ht := migrate_lt3 (createTables s) t _ hv h
  subst ht
  refine ⟨rfl, rfl, rfl, ?_, ?_⟩
  · exact lookupMeta_upsert _ _ _
  · intro r hr _
    exact List.mem_map.mpr ⟨r, hr, rfl⟩

/-- Witness for `ensure_migrates_to_v3` at the version-0 store holding
one `image`-typed row. -/
theorem ensure_migrates_to_v3_witness :
    (_get_schema_version (createTables v0ImageStore).metaTable < 3
      ∧ _ensure_schema v0ImageStore
          = .ok ⟨true, [("schema_version", "3")],
                 [⟨0, "image", none, some 1, none, none, none, none⟩],
                 ["text", "image", "three", "pyimage"],
                 [⟨1, "image/png", [137], ""⟩]⟩)
    ∧ (⟨true, [("schema_version", "3")],
         [⟨0, "image", none, some 1, none, none, none, none⟩],
         ["text", "image", "three", "pyimage"],
         [⟨1, "image/png", [137], ""⟩]⟩ : DbState).blocksEnum
        = ["text", "image", "three", "pyimage"] := by
  refine ⟨⟨by decide, by rfl⟩, ?_⟩
  exact (ensure_migrates_to_v3 v0ImageStore _ (by decide) (by rfl)).2.1

/-- Python's `s or ""` is the identity on strings. -/
theorem pyStrOr_some_empty (t : String) : pyStrOr (some t) "" = t := by
  show (if t = "" then "" else t) = t
  split
  · rename_i h
    exact h.symm
  · rfl

/-- An image block with resolvable inline bytes and MIME resolves to
exactly those bytes and that MIME, whatever the filesystem says. -/
theorem resolve_inline (w : SaveWorld) (path alt : String)
    (data : Option (List Nat)) (mime : Option String)
    (h : inlineResolvable (.image path alt data mime) = true) :
    ∃ d m, data = some d ∧ mime = some m
      ∧ _resolve_image_payload w path data mime = (some d, some m) := by
  match data, mime with
  | some d, some m =>
    refine ⟨d, m, rfl, rfl, ?_⟩
    have hd : d ≠ [] ∧ m ≠ "" := by simpa [inlineResolvable] using h
    show (if d ≠ [] ∧ m ≠ "" then (some d, some m) else resolveFromPath w path)
      = (some d, some m)
    rw [if_pos hd]
  | none, none => simp [inlineResolvable] at h
  | none, some _ => simp [inlineResolvable] at h
  | some _, none => simp [inlineResolvable] at h

/-- Every image row the save loop inserts has rowid at least the
starting `lastrowid`. -/
theorem saveBlocks_img_id_lb (w : SaveWorld) (bs : List Block) :
    ∀ p n ir, ir ∈ (saveBlocks w bs p n).2 → n ≤ ir.id := by
  induction bs with
  | nil =>
    intro p n ir h
    simp [saveBlocks] at h
  | cons b rest ih =>
    intro p n ir h
    match b with
    | .text t =>
      simp only [saveBlocks] at h
      exact ih (p + 1) n ir h
    | .three s =>
      simp only [saveBlocks] at h
      exact ih (p + 1) n ir h
    | .pyimage s f rd rh er rp =>
      simp only [saveBlocks] at h
      exact ih (p + 1) n ir h
    | .latex s =>
      simp only [saveBlocks] at h
      exact ih (p + 1) n ir h
    | .image path alt data mime =>
      simp only [saveBlocks] at h
      cases hres : _resolve_image_payload w path data mime with
      | mk o1 o2 =>
        rw [hres] at h
        match o1, o2 with
        | some ib, some m =>
          simp only [List.mem_cons] at h
          cases h with
          | inl h => subst h; exact Nat.le_refl n
          | inr h => exact Nat.le_of_succ_le (ih (p + 1) (n + 1) ir h)
        | none, none => exact ih (p + 1) n ir h
        | none, some _ => exact ih (p + 1) n ir h
        | some _, none => exact ih (p + 1) n ir h

/-- Every image row the save loop inserts is found again by id in the
full inserted images table: the ids are fresh and strictly increasing,
so the `SELECT ... WHERE id = ?` a later load performs returns exactly
the inserted row. -/
theorem saveBlocks_find_self (w : SaveWorld) (bs : List Block) :
    ∀ p n ir, ir ∈ (saveBlocks w bs p n).2 →
      findImage (saveBlocks w bs p n).2 ir.id = some ir := by
  induction bs with
  | nil =>
    intro p n ir h
    simp [saveBlocks] at h
  | cons b rest ih =>
    intro p n ir h
    match b with
    | .text t =>
      simp only [saveBlocks] at h ⊢
      exact ih (p + 1) n ir h
    | .three s =>
      simp only [saveBlocks] at h ⊢
      exact ih (p + 1) n ir h
    | .pyimage s f rd rh er rp =>
      simp only [saveBlocks] at h ⊢
      exact ih (p + 1) n ir h
    | .latex s =>
      simp only [saveBlocks] at h ⊢
      exact ih (p + 1) n ir h
    | .image path alt data mime =>
      simp only [saveBlocks] at h ⊢
      cases hres : _resolve_image_payload w path data mime with
      | mk o1 o2 =>
        rw [hres] at h
        match o1, o2 with
        | some ib, some m =>
          simp only [List.mem_cons] at h
          cases h with
          | inl h =>
            subst h
            simp [findImage]
          | inr h =>
            have hgt : n + 1 ≤ ir.id := saveBlocks_img_id_lb w rest (p + 1) (n + 1) ir h
            have hne : (⟨n, m, ib, alt⟩ : ImageRow).id ≠ ir.id := by
              show n ≠ ir.id
              omega
            simp only [findImage]
            rw [if_neg hne]
            exact ih (p + 1) (n + 1) ir h
        | none, none => exact ih (p + 1) n ir h
        | none, some _ => exact ih (p + 1) n ir h
        | some _, none => exact ih (p + 1) n ir h

/-- Every row the save loop inserts has position at least the starting
index. -/
theorem saveBlocks_pos_lb (w : SaveWorld) (bs : List Block) :
    ∀ p n r, r ∈ (saveBlocks w bs p n).1 → p ≤ r.position := by
  induction bs with
  | nil =>
    intro p n r h
    simp [saveBlocks] at h
  | cons b rest ih =>
    intro p n r h
    match b with
    | .text t =>
      simp only [saveBlocks, List.mem_cons] at h
      cases h with
      | inl h => subst h; exact Nat.le_refl p
      | inr h => exact Nat.le_of_succ_le (ih (p + 1) n r h)
    | .three s =>
      simp only [saveBlocks, List.mem_cons] at h
      cases h with
      | inl h => subst h; exact Nat.le_refl p
      | inr h => exact Nat.le_of_succ_le (ih (p + 1) n r h)
    | .pyimage s f rd rh er rp =>
      simp only [saveBlocks, List.mem_cons] at h
      cases h with
      | inl h => subst h; exact Nat.le_refl p
      | inr h => exact Nat.le_of_succ_le (ih (p + 1) n r h)
    | .latex s =>
      simp only [saveBlocks] at h
      exact Nat.le_of_succ_le (ih (p + 1) n r h)
    | .image path alt data mime =>
      simp only [saveBlocks] at h
      cases hres : _resolve_image_payload w path data mime with
      | mk o1 o2 =>
        rw [hres] at h
        match o1, o2 with
        | some ib, some m =>
          simp only [List.mem_cons] at h
          cases h with
          | inl h => subst h; exact Nat.le_refl p
          | inr h => exact Nat.le_of_succ_le (ih (p + 1) (n + 1) r h)
        | none, none => exact Nat.le_of_succ_le (ih (p + 1) n r h)
        | none, some _ => exact Nat.le_of_succ_le (ih (p + 1) n r h)
        | some _, none => exact Nat.le_of_succ_le (ih (p + 1) n r h)

/-- Every row the save loop inserts has position below the starting
index plus the number of blocks walked. -/
theorem saveBlocks_pos_ub (w : SaveWorld) (bs : List Block) :
    ∀ p n r, r ∈ (saveBlocks w bs p n).1 → r.position < p + bs.length := by
  induction bs with
  | nil =>
    intro p n r h
    simp [saveBlocks] at h
  | cons b rest ih =>
    intro p n r h
    have hstep : ∀ n', r ∈ (saveBlocks w rest (p + 1) n').1 →
        r.position < p + (b :: rest).length := by
      intro n' h'
      have := ih (p + 1) n' r h'
      simp only [List.length_cons]
      omega
    match b with
    | .text t =>
      simp only [saveBlocks, List.mem_cons] at h
      cases h with
      | inl h => subst h; simp [List.length_cons]
      | inr h => exact hstep n h
    | .three s =>
      simp only [saveBlocks, List.mem_cons] at h
      cases h with
      | inl h => subst h; simp [List.length_cons]
      | inr h => exact hstep n h
    | .pyimage s f rd rh er rp =>
      simp only [saveBlocks, List.mem_cons] at h
      cases h with
      | inl h => subst h; simp [List.length_cons]
      | inr h => exact hstep n h
    | .latex s =>
      simp only [saveBlocks] at h
      exact hstep n h
    | .image path alt data mime =>
      simp only [saveBlocks] at h
      cases hres : _resolve_image_payload w path data mime with
      | mk o1 o2 =>
        rw [hres] at h
        match o1, o2 with
        | some ib, some m =>
          simp only [List.mem_cons] at h
          cases h with
          | inl h => subst h; simp [List.length_cons]
          | inr h => exact hstep (n + 1) h
        | none, none => exact hstep n h
        | none, some _ => exact hstep n h
        | some _, none => exact hstep n h

/-- Inserting a row whose position is at most every position in the
list puts it in front. -/
theorem insertRow_front (r : Row) (rows : List Row)
    (h : ∀ x ∈ rows, r.position ≤ x.position) : insertRow r rows = r :: rows := by
  cases rows with
  | nil => rfl
  | cons x xs =>
    simp only [insertRow]
    rw [if_pos (h x (List.mem_cons_self x xs))]

/-- Unfolding step of the stable sort. -/
theorem sortRows_cons (r : Row) (rows : List Row) :
    sortRows (r :: rows) = insertRow r (sortRows rows) := rfl

/-- The save loop emits rows already in increasing position order, so
the load's `ORDER BY position` returns them unchanged. -/
theorem saveBlocks_sorted (w : SaveWorld) (bs : List Block) :
    ∀ p n, sortRows (saveBlocks w bs p n).1 = (saveBlocks w bs p n).1 := by
  induction bs with
  | nil =>
    intro p n
    rfl
  | cons b rest ih =>
    intro p n
    have front : ∀ (row : Row) n', row.position = p →
        sortRows (row :: (saveBlocks w rest (p + 1) n').1)
          = row :: (saveBlocks w rest (p + 1) n').1 := by
      intro row n' hpos
      rw [sortRows_cons, ih (p + 1) n']
      refine insertRow_front row _ (fun x hx => ?_)
      have := saveBlocks_pos_lb w rest (p + 1) n' x hx
      omega
    match b with
    | .text t =>
      simp only [saveBlocks]
      exact front _ n rfl
    | .three s =>
      simp only [saveBlocks]
      exact front _ n rfl
    | .pyimage s f rd rh er rp =>
      simp only [saveBlocks]
      exact front _ n rfl
    | .latex s =>
      simp only [saveBlocks]
      exact ih (p + 1) n
    | .image path alt data mime =>
      simp only [saveBlocks]
      cases hres2 : _resolve_image_payload w path data mime with
      | mk o1 o2 =>
        match o1, o2 with
        | some ib, some m => exact front _ (n + 1) rfl
        | none, none => exact ih (p + 1) n
        | none, some _ => exact ih (p + 1) n
        | some _, none => exact ih (p + 1) n

/-- A successful `ensure` leaves the tables present. -/
theorem ensure_hasTables (s t : DbState) (h : _ensure_schema s = .ok t) :
    t.hasTables = true := by
  unfold _ensure_schema at h
  dsimp only at h
  by_cases hv : _get_schema_version (createTables s).metaTable < SCHEMA_VERSION
  · rw [if_pos hv] at h
    have ht := migrate_lt3 (createTables s) t _ (by simpa [SCHEMA_VERSION] using hv) h
    subst ht
    exact createTables_hasTables s
  · rw [if_neg hv] at h
    obtain rfl : createTables s = t := by simpa using h
    exact createTables_hasTables s

/-- `ensure` is a no-op on a store whose tables exist and whose
recorded version is current. -/
theorem ensure_noop (t : DbState) (ht : t.hasTables = true)
    (hv : ¬ _get_schema_version t.metaTable < SCHEMA_VERSION) :
    _ensure_schema t = .ok t := by
  unfold _ensure_schema
  dsimp only
  rw [createTables_of_hasTables t ht]
  rw [if_neg hv]

/-- After `save_document`'s final version upsert the recorded version
reads back as 3. -/
theorem version_after_upsert (m : List (String × String)) :
    _get_schema_version (_upsert_meta m "schema_version" (toString SCHEMA_VERSION)) = 3 := by
  unfold _get_schema_version
  rw [lookupMeta_upsert]
  rfl

/-- The heart of the round trip: loading the rows the save loop emitted
(against any images table in which each inserted image row is found by
its id) reproduces, block for block, the content of the saved sequence
with its Math (latex) blocks removed — the save dispatch inserts no row
for them — whenever every image block resolves from its inline bytes
and MIME. -/
theorem saveBlocks_load (w : SaveWorld) (lw : LoadWorld) (bs : List Block) :
    ∀ p n (allImgs : List ImageRow),
      (∀ b ∈ bs, inlineResolvable b = true) →
      (∀ ir ∈ (saveBlocks w bs p n).2, findImage allImgs ir.id = some ir) →
      ((saveBlocks w bs p n).1.filterMap (loadRow lw allImgs)).map contentView
        = (bs.filter (fun b => !isLatex b)).map contentView := by
  induction bs with
  | nil =>
    intro p n allImgs _ _
    rfl
  | cons b rest ih =>
    intro p n allImgs hres hfind
    have hresRest : ∀ b ∈ rest, inlineResolvable b = true :=
      fun b hb => hres b (List.mem_cons_of_mem _ hb)
    match b with
    | .text t =>
      have hfindRest : ∀ ir ∈ (saveBlocks w rest (p + 1) n).2,
          findImage allImgs ir.id = some ir :=
        fun ir hir => hfind ir (by simp only [saveBlocks]; exact hir)
      have hrow : loadRow lw allImgs ⟨p, "text", some t, none, none, none, none, none⟩
          = some (.text t) := by
        simp [loadRow, pyStrOr_some_empty]
      have hfil : (Block.text t :: rest).filter (fun b => !isLatex b)
          = Block.text t :: rest.filter (fun b => !isLatex b) := by
        simp [isLatex]
      simp only [saveBlocks, List.filterMap_cons, hrow, hfil, List.map_cons]
      exact congrArg₂ List.cons rfl (ih (p + 1) n allImgs hresRest hfindRest)
    | .three s =>
      have hfindRest : ∀ ir ∈ (saveBlocks w rest (p + 1) n).2,
          findImage allImgs ir.id = some ir :=
        fun ir hir => hfind ir (by simp only [saveBlocks]; exact hir)
      have hrow : loadRow lw allImgs ⟨p, "three", some s, none, none, none, none, none⟩
          = some (.three s) := by
        simp [loadRow, pyStrOr_some_empty]
      have hfil : (Block.three s :: rest).filter (fun b => !isLatex b)
          = Block.three s :: rest.filter (fun b => !isLatex b) := by
        simp [isLatex]
      simp only [saveBlocks, List.filterMap_cons, hrow, hfil, List.map_cons]
      exact congrArg₂ List.cons rfl (ih (p + 1) n allImgs hresRest hfindRest)
    | .pyimage s f rd rh er rp =>
      have hfindRest : ∀ ir ∈ (saveBlocks w rest (p + 1) n).2,
          findImage allImgs ir.id = some ir :=
        fun ir hir => hfind ir (by simp only [saveBlocks]; exact hir)
      have hrow : loadRow lw allImgs ⟨p, "pyimage", some s, none, some f, rd, rh, er⟩
          = some (.pyimage s (pyStrOr (some f) "png") rd rh er (lw.matPy rd (some f) rh)) := by
        simp [loadRow, pyStrOr_some_empty]
      have hfil : (Block.pyimage s f rd rh er rp :: rest).filter (fun b => !isLatex b)
          = Block.pyimage s f rd rh er rp :: rest.filter (fun b => !isLatex b) := by
        simp [isLatex]
      simp only [saveBlocks, List.filterMap_cons, hrow, hfil, List.map_cons]
      refine congrArg₂ List.cons ?_ (ih (p + 1) n allImgs hresRest hfindRest)
      rfl
    | .latex s =>
      have hfindRest : ∀ ir ∈ (saveBlocks w rest (p + 1) n).2,
          findImage allImgs ir.id = some ir :=
        fun ir hir => hfind ir (by simp only [saveBlocks]; exact hir)
      have hfil : (Block.latex s :: rest).filter (fun b => !isLatex b)
          = rest.filter (fun b => !isLatex b) := by
        simp [isLatex]
      simp only [saveBlocks, hfil]
      exact ih (p + 1) n allImgs hresRest hfindRest
    | .image path alt data mime =>
      obtain ⟨d, m, hd, hm, hres2⟩ :=
        resolve_inline w path alt data mime (hres _ (List.mem_cons_self _ _))
      subst hd
      subst hm
      have hmemHead : (⟨n, m, d, alt⟩ : ImageRow)
          ∈ (saveBlocks w (Block.image path alt (some d) (some m) :: rest) p n).2 := by
        simp only [saveBlocks, hres2]
        exact List.mem_cons_self _ _
      have hfindHead : findImage allImgs n = some ⟨n, m, d, alt⟩ := by
        simpa using hfind _ hmemHead
      have hfindRest : ∀ ir ∈ (saveBlocks w rest (p + 1) (n + 1)).2,
          findImage allImgs ir.id = some ir :=
        fun ir hir => hfind ir (by
          simp only [saveBlocks, hres2]
          exact List.mem_cons_of_mem _ hir)
      have hrow : loadRow lw allImgs ⟨p, "image", none, some n, none, none, none, none⟩
          = some (.image (lw.matImage n m d) alt (some d) (some m)) := by
        simp [loadRow, hfindHead]
      have hfil : (Block.image path alt (some d) (some m) :: rest).filter (fun b => !isLatex b)
          = Block.image path alt (some d) (some m) :: rest.filter (fun b => !isLatex b) := by
        simp [isLatex]
      simp only [saveBlocks, hres2, List.filterMap_cons, hrow, hfil, List.map_cons]
      refine congrArg₂ List.cons ?_ (ih (p + 1) (n + 1) allImgs hresRest hfindRest)
      rfl

/-- C3 (amended): the save/load round trip, which holds only up to the
Math (latex) variant. For every document whose image blocks carry
resolvable inline bytes and MIME, `save_document` (into any prior
store, with any starting image rowid) followed by `load_document` yields
the block sequence of the original WITH ITS MATH BLOCKS REMOVED — the
save dispatch has no branch for them, so they are soft-dropped — equal
in order, variant type, text content, image bytes/MIME/alt, and render
source/payload/digest/error on the persisted blocks, with only the
derived materialized-path fields (erased by `contentView`) free to
differ. For a document containing no Math block this is content
equality with the original. -/
theorem save_load_roundtrip (w : SaveWorld) (lw : LoadWorld) (doc : List Block)
    (s0 s1 : DbState) (n : Nat)
    (hres : ∀ b ∈ doc, inlineResolvable b = true)
    (hsave : save_document w doc s0 n = .ok s1) :
    Except.map (List.map contentView) (load_document lw s1)
      = .ok ((doc.filter (fun b => !isLatex b)).map contentView) := by
  unfold save_document at hsave
  cases hens : _ensure_schema s0 with
  | error e =>
    rw [hens] at hsave
    exact absurd hsave (by simp)
  | ok s0' =>
    rw [hens] at hsave
    dsimp only at hsave
    injection hsave with hsave
    subst hsave
    have hnoop : _ensure_schema
        { s0' with
          blocks := (saveBlocks w doc 0 n).1
          images := (saveBlocks w doc 0 n).2
          metaTable := _upsert_meta s0'.metaTable "schema_version" (toString SCHEMA_VERSION) }
        = .ok { s0' with
                blocks := (saveBlocks w doc 0 n).1
                images := (saveBlocks w doc 0 n).2
                metaTable := _upsert_meta s0'.metaTable "schema_version"
                  (toString SCHEMA_VERSION) } := by
      refine ensure_noop _ (by exact ensure_hasTables s0 s0' hens) ?_
      show ¬ _get_schema_version
        (_upsert_meta s0'.metaTable "schema_version" (toString SCHEMA_VERSION))
          < SCHEMA_VERSION
      rw [version_after_upsert]
      simp [SCHEMA_VERSION]
    unfold load_document
    rw [hnoop]
    dsimp only
    rw [saveBlocks_sorted w doc 0 n]
    simp only [Except.map]
    exact congrArg Except.ok
      (saveBlocks_load w lw doc 0 n (saveBlocks w doc 0 n).2 hres
        (saveBlocks_find_self w doc 0 n))

/-- C3 counterexample: the round trip as originally claimed fails on a
document covering every variant. Saving the five-variant sample
document stores no row for its Math block (the rows below stop at
position 3, with the Math block's position 4 consumed but absent), so
the loaded content is the original's four persisted blocks — not equal
to the original's content, which still has the Math block. -/
theorem roundtrip_drops_latex_block :
    save_document sampleSaveWorld sampleDoc ⟨false, [], [], [], []⟩ 1
        = .ok ⟨true, [("schema_version", "3")],
               [⟨0, "text", some "hello", none, none, none, none, none⟩,
                ⟨1, "image", none, some 1, none, none, none, none⟩,
                ⟨2, "three", some "scene", none, none, none, none, none⟩,
                ⟨3, "pyimage", some "code", none, some "png", some "AA", some "hash", none⟩],
               enumV3, [⟨1, "image/png", [1, 2], "alt"⟩]⟩
    ∧ Except.map (List.map contentView)
        (load_document sampleLoadWorld
          ⟨true, [("schema_version", "3")],
           [⟨0, "text", some "hello", none, none, none, none, none⟩,
            ⟨1, "image", none, some 1, none, none, none, none⟩,
            ⟨2, "three", some "scene", none, none, none, none, none⟩,
            ⟨3, "pyimage", some "code", none, some "png", some "AA", some "hash", none⟩],
           enumV3, [⟨1, "image/png", [1, 2], "alt"⟩]⟩)
        = .ok [.text "hello",
               .image "alt" (some [1, 2]) (some "image/png"),
               .three "scene",
               .pyimage "code" (some "AA") (some "hash") none]
    ∧ ([.text "hello",
        .image "alt" (some [1, 2]) (some "image/png"),
        .three "scene",
        .pyimage "code" (some "AA") (some "hash") none] : List BlockContent)
        ≠ sampleDoc.map contentView := by
  exact ⟨by rfl, by rfl, by decide⟩

/-- Witness for `save_load_roundtrip` at the five-variant sample
document: the loaded content equals the original's content with its
Math block filtered out. -/
theorem save_load_roundtrip_witness :
    (∀ b ∈ sampleDoc, inlineResolvable b = true)
    ∧ save_document sampleSaveWorld sampleDoc ⟨false, [], [], [], []⟩ 1
        = .ok ⟨true, [("schema_version", "3")],
               [⟨0, "text", some "hello", none, none, none, none, none⟩,
                ⟨1, "image", none, some 1, none, none, none, none⟩,
                ⟨2, "three", some "scene", none, none, none, none, none⟩,
                ⟨3, "pyimage", some "code", none, some "png", some "AA", some "hash", none⟩],
               enumV3, [⟨1, "image/png", [1, 2], "alt"⟩]⟩
    ∧ Except.map (List.map contentView)
        (load_document sampleLoadWorld
          ⟨true, [("schema_version", "3")],
           [⟨0, "text", some "hello", none, none, none, none, none⟩,
            ⟨1, "image", none, some 1, none, none, none, none⟩,
            ⟨2, "three", some "scene", none, none, none, none, none⟩,
            ⟨3, "pyimage", some "code", none, some "png", some "AA", some "hash", none⟩],
           enumV3, [⟨1, "image/png", [1, 2], "alt"⟩]⟩)
        = .ok ((sampleDoc.filter (fun b => !isLatex b)).map contentView) := by
  refine ⟨by decide, by rfl, ?_⟩
  exact save_load_roundtrip sampleSaveWorld sampleLoadWorld sampleDoc
    ⟨false, [], [], [], []⟩ _ 1 (by decide) (by rfl)

/-- The save loop over a concatenation is the loop over the first part
followed by the loop over the second, with the position index advanced
by the full length of the first part and the image rowid advanced by the
number of image rows the first part inserted. -/
theorem saveBlocks_append (w : SaveWorld) (xs : List Block) :
    ∀ ys p n,
      saveBlocks w (xs ++ ys) p n
        = ((saveBlocks w xs p n).1
             ++ (saveBlocks w ys (p + xs.length)
                   (n + (saveBlocks w xs p n).2.length)).1,
           (saveBlocks w xs p n).2
             ++ (saveBlocks w ys (p + xs.length)
                   (n + (saveBlocks w xs p n).2.length)).2) := by
  induction xs with
  | nil =>
    intro ys p n
    simp [saveBlocks]
  | cons b rest ih =>
    intro ys p n
    match b with
    | .text t =>
      simp only [List.cons_append, saveBlocks, List.append_eq, ih ys (p + 1) n,
        List.length_cons]
      simp [Nat.add_assoc, Nat.add_comm, Nat.add_left_comm]
    | .three s =>
      simp only [List.cons_append, saveBlocks, List.append_eq, ih ys (p + 1) n,
        List.length_cons]
      simp [Nat.add_assoc, Nat.add_comm, Nat.add_left_comm]
    | .pyimage s f rd rh er rp =>
      simp only [List.cons_append, saveBlocks, List.append_eq, ih ys (p + 1) n,
        List.length_cons]
      simp [Nat.add_assoc, Nat.add_comm, Nat.add_left_comm]
    | .latex s =>
      simp only [List.cons_append, saveBlocks, List.append_eq, ih ys (p + 1) n,
        List.length_cons]
      simp [Nat.add_assoc, Nat.add_comm, Nat.add_left_comm]
    | .image path alt data mime =>
      simp only [List.cons_append, saveBlocks, List.append_eq]
      cases hres2 : _resolve_image_payload w path data mime with
      | mk o1 o2 =>
        match o1, o2 with
        | some ib, some m =>
          simp only [List.append_eq, ih ys (p + 1) (n + 1), List.length_cons]
          simp [Nat.add_assoc, Nat.add_comm, Nat.add_left_comm]
        | none, none =>
          simp only [List.append_eq, ih ys (p + 1) n, List.length_cons]
          simp [Nat.add_assoc, Nat.add_comm, Nat.add_left_comm]
        | none, some _ =>
          simp only [List.append_eq, ih ys (p + 1) n, List.length_cons]
          simp [Nat.add_assoc, Nat.add_comm, Nat.add_left_comm]
        | some _, none =>
          simp only [List.append_eq, ih ys (p + 1) n, List.length_cons]
          simp [Nat.add_assoc, Nat.add_comm, Nat.add_left_comm]

/-- An image block with no inline bytes and a non-existent path resolves
to no payload. -/
theorem resolve_missing (w : SaveWorld) (path : String) (mime : Option String)
    (hpath : w.pathExists path = false) :
    _resolve_image_payload w path none mime = (none, none) := by
  have hfb : resolveFromPath w path = (none, none) := by
    unfold resolveFromPath
    rw [if_neg (by simp [hpath])]
  cases mime with
  | none => simpa [_resolve_image_payload] using hfb
  | some m => simpa [_resolve_image_payload] using hfb

/-- C9: save's soft-drop. An image block with no inline bytes whose path
does not exist is omitted from the stored rows, but its positional index
still advances: the save of `pre ++ [dropped] ++ post` is exactly the
rows of `pre` (all with positions below `p + pre.length`) followed by
the rows of `post` started at position `p + pre.length + 1` (all with
positions above `p + pre.length`) — no row carries the dropped position,
and every row saved after the dropped block has a strictly greater
position than every row saved before it. -/
theorem save_soft_drop (w : SaveWorld) (pre post : List Block)
    (path alt : String) (mime : Option String) (p n : Nat)
    (hpath : w.pathExists path = false) :
    saveBlocks w (pre ++ Block.image path alt none mime :: post) p n
      = ((saveBlocks w pre p n).1
           ++ (saveBlocks w post (p + pre.length + 1)
                 (n + (saveBlocks w pre p n).2.length)).1,
         (saveBlocks w pre p n).2
           ++ (saveBlocks w post (p + pre.length + 1)
                 (n + (saveBlocks w pre p n).2.length)).2)
    ∧ (∀ r ∈ (saveBlocks w pre p n).1, r.position < p + pre.length)
    ∧ (∀ r ∈ (saveBlocks w post (p + pre.length + 1)
                 (n + (saveBlocks w pre p n).2.length)).1,
         p + pre.length < r.position) := by
  refine ⟨?_, ?_, ?_⟩
  · rw [saveBlocks_append w pre (Block.image path alt none mime :: post) p n]
    simp only [saveBlocks, resolve_missing w path mime hpath]
  · intro r hr
    exact saveBlocks_pos_ub w pre p n r hr
  · intro r hr
    have := saveBlocks_pos_lb w post (p + pre.length + 1)
      (n + (saveBlocks w pre p n).2.length) r hr
    omega

/-- Witness for `save_soft_drop`: between two text blocks, an image
block with no bytes and a missing path is dropped; the surviving rows
carry positions 0 and 2 — position 1 is skipped, and the row after the
drop sits strictly above the row before it. -/
theorem save_soft_drop_witness :
    (sampleSaveWorld.pathExists "/missing.png" = false
      ∧ saveBlocks sampleSaveWorld
          ([Block.text "a"] ++ Block.image "/missing.png" "" none none :: [Block.text "b"]) 0 1
        = ((saveBlocks sampleSaveWorld [Block.text "a"] 0 1).1
             ++ (saveBlocks sampleSaveWorld [Block.text "b"] (0 + 1 + 1)
                   (1 + (saveBlocks sampleSaveWorld [Block.text "a"] 0 1).2.length)).1,
           (saveBlocks sampleSaveWorld [Block.text "a"] 0 1).2
             ++ (saveBlocks sampleSaveWorld [Block.text "b"] (0 + 1 + 1)
                   (1 + (saveBlocks sampleSaveWorld [Block.text "a"] 0 1).2.length)).2))
    ∧ (saveBlocks sampleSaveWorld
        ([Block.text "a"] ++ Block.image "/missing.png" "" none none :: [Block.text "b"]) 0 1).1.map
          Row.position = [0, 2] := by
  refine ⟨⟨by rfl, ?_⟩, by rfl⟩
  have h := save_soft_drop sampleSaveWorld [Block.text "a"] [Block.text "b"]
    "/missing.png" "" none 0 1 (by rfl)
  simpa using h.1

end GtkV.Persistence
